import Mathlib

/-!
Verification of the contact-record formatting pipeline (`src/listener.js`).

Strings are modelled as `List Char` (one entry per Unicode code point; every
string handled by the pipeline lies in the basic plane, where JS string
comparison by UTF-16 code units agrees with comparison by code point).
JS field values are modelled by `JVal`: a bare string, a bare boolean, or a
wrapper object carrying a `value` attribute.  JS `undefined` (an absent
field) is modelled by `Option`.
-/

/-- A JS value as stored in a record's field map: a bare string, a bare
boolean, or a wrapper object `\x7b value: v \x7d`. -/
inductive JVal : Type where
  | vstr (s : List Char) : JVal
  | vbool (b : Bool) : JVal
  | vobj (inner : JVal) : JVal
deriving DecidableEq

/-- JS truthiness of a `JVal`: the empty string and `false` are falsy,
every object is truthy. -/
def truthy : JVal → Bool
  | .vstr s => !s.isEmpty
  | .vbool b => b
  | .vobj _ => true

/-- JS stringification as used in template literals and `toString()`:
strings are themselves, booleans print `true`/`false`, and any object
prints `[object Object]`. -/
def jsToString : JVal → List Char
  | .vstr s => s
  | .vbool true => ("true").data
  | .vbool false => ("false").data
  | .vobj _ => ("[object Object]").data

/-- The read pattern `v?.value || v` from `listener.js`: a wrapper is
unwrapped only when its inner value is truthy (JS `||` falls back to the
wrapper object itself when the inner value is falsy); a bare scalar reads
as itself. -/
def readVal : JVal → JVal
  | .vobj w => if truthy w then w else .vobj w
  | v => v

/-- JS `str.startsWith(pre)`. -/
def strStartsWith : List Char → List Char → Bool
  | [], _ => true
  | _ :: _, [] => false
  | p :: ps, c :: cs => p == c && strStartsWith ps cs

/-- `formatPhoneNumber`, 10-digit branch (listener.js lines 15-20):
`+1 (AAA) PPP-LLLL` from the digit string's slices 0-3, 3-6, 6-. -/
def usTenFormat (c : List Char) : List Char :=
  '+' :: '1' :: ' ' :: '(' :: (c.take 3 ++ ')' :: ' ' :: ((c.drop 3).take 3 ++ '-' :: c.drop 6))

/-- `formatPhoneNumber`, 11-digit branch (listener.js lines 23-28):
`+D[0] (D[1..4]) D[4..7]-D[7..]` from slices 0-1, 1-4, 4-7, 7-. -/
def usElevenFormat (c : List Char) : List Char :=
  '+' :: (c.take 1 ++ ' ' :: '(' :: ((c.drop 1).take 3 ++ ')' :: ' ' :: ((c.drop 4).take 3 ++ '-' :: c.drop 7)))

/-- `formatPhoneNumber` (listener.js lines 8-37).  A falsy input yields
`""`; otherwise all non-digits are stripped; a 10-digit string and an
11-digit string starting with `1` are formatted as US numbers; only after
those checks an input already starting with `+` is returned unchanged;
anything else gets a `+` prefixed to its digit string. -/
def formatPhoneNumber (phone : List Char) : List Char :=
  if phone = [] then []
  else if (phone.filter Char.isDigit).length = 10 then
    usTenFormat (phone.filter Char.isDigit)
  else if (phone.filter Char.isDigit).length = 11 ∧ (phone.filter Char.isDigit).head? = some '1' then
    usElevenFormat (phone.filter Char.isDigit)
  else if phone.head? = some '+' then phone
  else '+' :: phone.filter Char.isDigit

/-- Whitespace characters matched by the JS regex class `\s`. -/
def isJsSpace (c : Char) : Bool :=
  c == ' ' || c == '\t' || c == '\n' || c == '\r' ||
  c.toNat == 11 || c.toNat == 12 || c.toNat == 0xa0 || c.toNat == 0x1680 ||
  (0x2000 ≤ c.toNat && c.toNat ≤ 0x200a) ||
  c.toNat == 0x2028 || c.toNat == 0x2029 || c.toNat == 0x202f ||
  c.toNat == 0x205f || c.toNat == 0x3000 || c.toNat == 0xfeff

/-- Consume exactly `n` digits, returning the rest of the input. -/
def expectDigits : Nat → List Char → Option (List Char)
  | 0, s => some s
  | _ + 1, [] => none
  | n + 1, c :: s => if c.isDigit then expectDigits n s else none

/-- Consume one expected character. -/
def expectCh (ch : Char) : List Char → Option (List Char)
  | [] => none
  | c :: s => if c == ch then some s else none

/-- Consume an optional whitespace character (the regex `\s?`; since the
token after it is never itself whitespace, greedy matching without
backtracking is equivalent). -/
def skipOptSpace : List Char → List Char
  | [] => []
  | c :: s => if isJsSpace c then s else c :: s

/-- The JS regex `^\d{1}\s?\(\d{3}\)\s?\d{3}-\d{4}$` from
`isUSANumber` (listener.js line 63). -/
def matchesFormattedUSA (s : List Char) : Bool :=
  match expectDigits 1 s with
  | none => false
  | some s1 =>
    match expectCh '(' (skipOptSpace s1) with
    | none => false
    | some s2 =>
      match expectDigits 3 s2 with
      | none => false
      | some s3 =>
        match expectCh ')' s3 with
        | none => false
        | some s4 =>
          match expectDigits 3 (skipOptSpace s4) with
          | none => false
          | some s5 =>
            match expectCh '-' s5 with
            | none => false
            | some s6 =>
              match expectDigits 4 s6 with
              | none => false
              | some s7 => s7.isEmpty

/-- The digit-length fallback of `isUSANumber` (listener.js lines 74-87):
strip non-digits, then 10 digits, or 11 digits starting with `1`. -/
def fallbackDigits (phone : List Char) : Bool :=
  if (phone.filter Char.isDigit).length = 10 then true
  else if (phone.filter Char.isDigit).length = 11 ∧ (phone.filter Char.isDigit).head? = some '1' then true
  else false

/-- `isUSANumber` (listener.js lines 43-88).  Checked in order: a falsy
input is `false`; a `"+1 "` start is `true`; a `"+1"` start followed by a
digit inspects the substring after `+1` — exactly 10 digits or the
formatted shape is `true`, more than 10 characters is `false` (early
return), anything else falls through; finally the digit-length fallback. -/
def isUSANumber (phone : List Char) : Bool :=
  if phone = [] then false
  else if strStartsWith (("+1 ").data) phone then true
  else if strStartsWith (("+1").data) phone ∧ phone.length > 2 then
    match phone.get? 2 with
    | none => fallbackDigits phone
    | some c2 =>
      if c2.isDigit then
        if ((phone.drop 2).length = 10 ∧ (phone.drop 2).all Char.isDigit)
            ∨ matchesFormattedUSA (phone.drop 2) then true
        else if (phone.drop 2).length > 10 then false
        else fallbackDigits phone
      else fallbackDigits phone
  else fallbackDigits phone

/-- The JS regex class `\w`: ASCII letters, digits, underscore. -/
def isWordChar (c : Char) : Bool := c.isAlpha || c.isDigit || c == '_'

/-- One pass of `replace(/\b\w/g, toUpperCase)` over an already lowercased
string: a word character is uppercased exactly when the previous character
was not a word character (the flag records whether it was). -/
def capWordStarts : Bool → List Char → List Char
  | _, [] => []
  | prevWord, c :: cs =>
    if isWordChar c then (if prevWord then c else c.toUpper) :: capWordStarts true cs
    else c :: capWordStarts false cs

/-- `toNameCase` (listener.js lines 94-98): falsy or non-string input
yields `""`; otherwise lowercase the whole string and uppercase every word
character that starts a word (`replace(/\b\w/g, ...)`). -/
def toNameCase (name : List Char) : List Char :=
  if name = [] then [] else capWordStarts false (name.map Char.toLower)

/-- A record's field map: field name to stored value, in JS object key
insertion order. -/
abbrev FieldMap : Type := List (List Char × JVal)

/-- Association-list lookup (JS property access / `Map.get`). -/
def lookupAssoc {β : Type} : List (List Char × β) → List Char → Option β
  | [], _ => none
  | (k', v) :: rest, k => if k' = k then some v else lookupAssoc rest k

/-- Association-list update (JS property assignment / `Map.set`): an
existing key keeps its position, a new key is appended. -/
def setAssoc {β : Type} : List (List Char × β) → List Char → β → List (List Char × β)
  | [], k, v => [(k, v)]
  | (k', v') :: rest, k, v =>
    if k' = k then (k, v) :: rest else (k', v') :: setAssoc rest k v

/-- Reading a field the way `listener.js` does:
`record.values.f?.value || record.values.f`; an absent field reads as
`undefined` (`none`). -/
def readField (m : FieldMap) (k : List Char) : Option JVal :=
  match lookupAssoc m k with
  | none => none
  | some v => some (readVal v)

/-- A fetched record: a stable id plus an optional field map (`none`
models a record without a `values` object). -/
structure JRecord : Type where
  id : List Char
  values : Option FieldMap
deriving DecidableEq

/-- A record update submitted to the store: record id plus the changed
fields, each already in wrapper form. -/
structure RecordUpdate : Type where
  id : List Char
  values : FieldMap
deriving DecidableEq

/-- Strict lexicographic comparison of strings by code unit, the order
used by JS `Array.prototype.sort()` on strings. -/
def sigLt : List Char → List Char → Bool
  | [], [] => false
  | [], _ :: _ => true
  | _ :: _, [] => false
  | a :: as, b :: bs =>
    if a.toNat < b.toNat then true
    else if b.toNat < a.toNat then false
    else sigLt as bs

/-- Insert a string into a sorted list of strings. -/
def insertSig (x : List Char) : List (List Char) → List (List Char)
  | [] => [x]
  | y :: ys => if sigLt y x then y :: insertSig x ys else x :: y :: ys

/-- Sort a list of strings (JS `fieldValues.sort()`). -/
def sortSigs : List (List Char) → List (List Char)
  | [] => []
  | x :: xs => insertSig x (sortSigs xs)

/-- `createRowSignature` (listener.js lines 502-515): render every field
of the map as `name:value` (reading through the `?.value ||` pattern),
sort, and join with `|`.  No field is excluded. -/
def createRowSignature (values : FieldMap) : List Char :=
  List.intercalate (['|'])
    (sortSigs (values.map (fun kv => kv.1 ++ ':' :: jsToString (readVal kv.2))))

def firstNameK : List Char := ("firstName").data
def lastNameK : List Char := ("lastName").data
def phoneK : List Char := ("phone").data
def isUSANumberK : List Char := ("isUSANumber").data
def duplicateStatusK : List Char := ("duplicateStatus").data

/-- Decimal rendering of a count, as JS template interpolation does. -/
def natToString (n : Nat) : List Char := (Nat.repr n).data

/-- The duplicate marker string embedding the occurrence count. -/
def dupMarker (n : Nat) : List Char :=
  ("⚠️ Duplicate (").data ++ natToString n ++ (" total)").data

/-- The unique marker string. -/
def uniqueMarker : List Char := ("✅ Unique").data

/-- Truthiness of a possibly-undefined value. -/
def truthyOpt : Option JVal → Bool
  | none => false
  | some v => truthy v

/-- Stringification of a possibly-undefined value (only used on truthy
values, which are never `undefined`). -/
def jsToStringOpt : Option JVal → List Char
  | none => ("undefined").data
  | some v => jsToString v

/-- The first/last-name block of `formatRecords` (listener.js lines
406-423): only a truthy bare string is formatted, and an update is
emitted only when the cased form differs. -/
def nameUpdate (v : Option JVal) : Option JVal :=
  match v with
  | some (.vstr s) =>
    if !s.isEmpty then
      if toNameCase s ≠ s then some (.vobj (.vstr (toNameCase s))) else none
    else none
  | _ => none

/-- The phone block (listener.js lines 426-437): a truthy phone value is
formatted and an update emitted when the result differs from the
stringified current value. -/
def phoneUpdate (v : Option JVal) : Option JVal :=
  match v with
  | some pv =>
    if truthy pv then
      if formatPhoneNumber (jsToString pv) ≠ jsToString pv then
        some (.vobj (.vstr (formatPhoneNumber (jsToString pv))))
      else none
    else none
  | none => none

/-- The USA-flag block (listener.js lines 440-451): runs only for a
truthy phone value; the classification is compared strictly (`!==`)
against the read current value. -/
def usaUpdate (v : Option JVal) (current : Option JVal) : Option JVal :=
  match v with
  | some pv =>
    if truthy pv then
      if current ≠ some (.vbool (isUSANumber (jsToString pv))) then
        some (.vobj (.vbool (isUSANumber (jsToString pv))))
      else none
    else none
  | none => none

/-- The duplicate-status block (listener.js lines 454-475): a truthy
signature selects the duplicate or unique marker from the batch count and
emits an update when it differs strictly from the read current value. -/
def dupUpdate (rowSigs : List (List Char × Nat)) (recSigs : List (List Char × List Char))
    (rid : List Char) (current : Option JVal) : Option JVal :=
  match lookupAssoc recSigs rid with
  | none => none
  | some sig =>
    if !sig.isEmpty then
      if current ≠ some (.vstr (if (lookupAssoc rowSigs sig).getD 0 > 1
          then dupMarker ((lookupAssoc rowSigs sig).getD 0)
          else uniqueMarker)) then
        some (.vobj (.vstr (if (lookupAssoc rowSigs sig).getD 0 > 1
          then dupMarker ((lookupAssoc rowSigs sig).getD 0)
          else uniqueMarker)))
      else none
    else none

/-- The five possible entries of `recordUpdates`, in the order the JS
object acquires its keys (listener.js lines 388-475). -/
structure RecordDiff : Type where
  firstName : Option JVal
  lastName : Option JVal
  phone : Option JVal
  isUSANumber : Option JVal
  duplicateStatus : Option JVal
deriving DecidableEq

/-- The per-record diff of `formatRecords` (listener.js lines 388-475),
split by field. -/
def diffFields (rowSigs : List (List Char × Nat)) (recSigs : List (List Char × List Char))
    (r : JRecord) (vs : FieldMap) : RecordDiff :=
  { firstName := nameUpdate (readField vs firstNameK)
    lastName := nameUpdate (readField vs lastNameK)
    phone := phoneUpdate (readField vs phoneK)
    isUSANumber := usaUpdate (readField vs phoneK) (readField vs isUSANumberK)
    duplicateStatus := dupUpdate rowSigs recSigs r.id (readField vs duplicateStatusK) }

/-- An optional entry of the `recordUpdates` object. -/
def optEntry (k : List Char) : Option JVal → FieldMap
  | none => []
  | some v => [(k, v)]

/-- The `recordUpdates` object as an entry list, in key insertion order;
`hasUpdates` is its non-emptiness. -/
def diffList (d : RecordDiff) : FieldMap :=
  optEntry firstNameK d.firstName ++ optEntry lastNameK d.lastName ++
  optEntry phoneK d.phone ++ optEntry isUSANumberK d.isUSANumber ++
  optEntry duplicateStatusK d.duplicateStatus

/-- First pass of `formatRecords` (listener.js lines 367-377): count each
signature across the batch and remember each record's signature; records
without a `values` map are skipped. -/
def computeSigs (records : List JRecord) :
    List (List Char × Nat) × List (List Char × List Char) :=
  records.foldl (fun acc r =>
    match r.values with
    | none => acc
    | some vs =>
      (setAssoc acc.1 (createRowSignature vs)
        ((lookupAssoc acc.1 (createRowSignature vs)).getD 0 + 1),
       setAssoc acc.2 r.id (createRowSignature vs))) ([], [])

/-- Second pass of `formatRecords` (listener.js lines 380-484): collect a
`RecordUpdate` for every record whose diff is non-empty; records without
a `values` map are skipped. -/
def processRecords (records : List JRecord) : List RecordUpdate :=
  records.foldl (fun acc r =>
    match r.values with
    | none => acc
    | some vs =>
      if diffList (diffFields (computeSigs records).1 (computeSigs records).2 r vs) ≠ [] then
        acc ++ [⟨r.id, diffList (diffFields (computeSigs records).1 (computeSigs records).2 r vs)⟩]
      else acc) []

/-- The batch-update call of `formatRecords` (listener.js lines 487-494):
made exactly when the collected update list is non-empty. -/
def batchUpdateCall (records : List JRecord) : Option (List RecordUpdate) :=
  if processRecords records ≠ [] then some (processRecords records) else none

/-- The update entry submitted for a given record id, if any. -/
def updateValues (us : List RecordUpdate) (rid : List Char) : FieldMap :=
  (lookupAssoc (us.map (fun u => (u.id, u.values))) rid).getD []

/-- Modelled from the spec: the record store applies a submitted batch by
writing each updated field in wrapper form into the record's field map
(claim C1's record set R').  The stored updates are already wrapper
values, so application is a plain field-map write. -/
def applyValues (vs : FieldMap) (upd : FieldMap) : FieldMap :=
  upd.foldl (fun m kv => setAssoc m kv.1 kv.2) vs

/-- Modelled from the spec: R' — the fetched record set after one run's
updates have been applied by the store. -/
def applyUpdates (records : List JRecord) (updates : List RecordUpdate) : List JRecord :=
  records.map (fun r =>
    match lookupAssoc (updates.map (fun u => (u.id, u.values))) r.id, r.values with
    | some uvals, some vs => ⟨r.id, some (applyValues vs uvals)⟩
    | _, _ => r)

/-- One fetch attempt's outcome at the store boundary (listener.js lines
306-331): the call throws, or the response carries the record list nested
under `data.records`, or directly under `data`, or in neither shape. -/
inductive FetchAttempt : Type where
  | err : FetchAttempt
  | nested (rs : List JRecord) : FetchAttempt
  | top (rs : List JRecord) : FetchAttempt
  | malformed : FetchAttempt

/-- The record list the loop body leaves in `records` after one attempt.
A thrown store error is caught and logged (listener.js lines 351-353), so
`records` keeps its previous value; since the loop only continues while
`records` is empty, that value is `[]`. -/
def attemptRecords : FetchAttempt → List JRecord
  | .err => []
  | .nested rs => rs
  | .top rs => rs
  | .malformed => []

/-- Result of the retry loop: the record list, the number of store calls
made, and the total units of delay waited. -/
structure FetchOutcome : Type where
  records : List JRecord
  calls : Nat
  waitUnits : Nat
deriving DecidableEq

/-- The retry loop of `formatRecords` (listener.js lines 300-360), over
the remaining attempt budget: a non-empty attempt breaks out immediately
with no wait; a failed or empty attempt is followed by a 2-unit wait
unless it was the final attempt. -/
def fetchAux (store : Nat → FetchAttempt) : Nat → Nat → FetchOutcome
  | 0, _ => ⟨[], 0, 0⟩
  | fuel + 1, i =>
    if attemptRecords (store i) = [] then
      ⟨(fetchAux store fuel (i + 1)).records,
       (fetchAux store fuel (i + 1)).calls + 1,
       (fetchAux store fuel (i + 1)).waitUnits + (if fuel = 0 then 0 else 2)⟩
    else ⟨attemptRecords (store i), 1, 0⟩

/-- `maxAttempts` (listener.js line 302). -/
def maxAttempts : Nat := 5

/-- The resilient fetch: up to `maxAttempts` attempts starting at attempt
index 0. -/
def fetchRecords (store : Nat → FetchAttempt) : FetchOutcome :=
  fetchAux store maxAttempts 0

/-- Claim C1's failing record: a single record whose phone classifies as
non-USA. -/
def c1rec : JRecord :=
  ⟨("r1").data, some [(phoneK, .vstr (("+44 20 7946 0958").data))]⟩

/-- The record set R of claim C1's failing input. -/
def c1records : List JRecord := [c1rec]

/-- R' of claim C1: R with the first run's updates applied in wrapper
form. -/
def c1recordsAfter : List JRecord :=
  applyUpdates c1records (processRecords c1records)

/-- Claim C2's record-2 field map. -/
def c2m2 : FieldMap := [(firstNameK, .vstr (("Ann").data))]

/-- Claim C2's record-4 field map: identical to record 2's except for the
duplicate-status field. -/
def c2m4 : FieldMap :=
  [(firstNameK, .vstr (("Ann").data)), (duplicateStatusK, .vstr (("old").data))]

/-- A batch of 5 records where records 2 and 4 have identical field maps
ignoring the duplicate-status field (record 4 carries one, record 2 does
not). -/
def c2batchX : List JRecord :=
  [⟨("p1").data, some [(firstNameK, .vstr (("Bob").data))]⟩,
   ⟨("p2").data, some c2m2⟩,
   ⟨("p3").data, some [(firstNameK, .vstr (("Cara").data))]⟩,
   ⟨("p4").data, some c2m4⟩,
   ⟨("p5").data, some [(firstNameK, .vstr (("Dave").data))]⟩]

/-- A batch of 5 records where records 2 and 4 have fully identical field
maps (duplicate-status field included). -/
def c2batch : List JRecord :=
  [⟨("q1").data, some [(firstNameK, .vstr (("Bob").data))]⟩,
   ⟨("q2").data, some c2m2⟩,
   ⟨("q3").data, some [(firstNameK, .vstr (("Cara").data))]⟩,
   ⟨("q4").data, some c2m2⟩,
   ⟨("q5").data, some [(firstNameK, .vstr (("Dave").data))]⟩]

/-- Claim C4's counterexample record: a stored boolean USA flag but no
phone value. -/
def c4vs : FieldMap := [(isUSANumberK, .vbool true)]

/-- The record wrapping `c4vs`. -/
def c4rec : JRecord := ⟨("r4").data, some c4vs⟩

/-- Claim C4's witness field map: a truthy phone and no stored USA flag. -/
def c4wvs : FieldMap := [(phoneK, .vstr (("5551234567").data))]

/-- The record wrapping `c4wvs`. -/
def c4wrec : JRecord := ⟨("w4").data, some c4wvs⟩

/-- A store for claim C8's witness: an error on attempt 0, an empty list
on attempt 1, a non-empty nested response on attempt 2. -/
def c8storeA : Nat → FetchAttempt :=
  fun i => if i = 0 then .err else if i = 1 then .top [] else .nested [c1rec]

/-- A store for claim C8's witness that fails every attempt. -/
def c8storeB : Nat → FetchAttempt := fun _ => .err

/-- Modelled from the spec wording of claim C5 ("each whitespace-delimited
word lower-cased and then its first character upper-cased"): scan the
string; the first character of each maximal non-whitespace run is
lowercased then uppercased, every other non-whitespace character is
lowercased, whitespace is kept.  The flag records being at the start of a
word. -/
def specScan : Bool → List Char → List Char
  | _, [] => []
  | atStart, c :: cs =>
    if isJsSpace c then c :: specScan true cs
    else (if atStart then Char.toUpper (Char.toLower c) else Char.toLower c) :: specScan false cs

/-- Modelled from the spec wording of claim C5: name casing by
whitespace-delimited words. -/
def toNameCaseSpec (s : List Char) : List Char := specScan true s

/-- The amended characterization of `toNameCase`: position by position,
the output character is the lowercased input character, uppercased exactly
when it is a word character whose predecessor is absent or not a word
character. -/
def toNameCaseAlt (s : List Char) : List Char :=
  List.zipWith
    (fun pc c =>
      if isWordChar c && !(match pc with | none => false | some p => isWordChar p) then
        c.toUpper
      else c)
    (none :: (s.map Char.toLower).map some) (s.map Char.toLower)

/-- Modelled from the spec wording of claims C9/C3: the US format
`+1 (AAA) PPP-LLLL` built from a digit string's first 3, next 3 and
remaining digits. -/
def specUSFormat (d : List Char) : List Char :=
  ("+1 (").data ++ d.take 3 ++ (") ").data ++ (d.drop 3).take 3 ++ ("-").data ++ d.drop 6


/-- A list of digit characters is unchanged by the digit filter. -/
theorem filter_digits_self (l : List Char) (h : ∀ a ∈ l, Char.isDigit a) :
    l.filter Char.isDigit = l :=
  List.filter_eq_self.mpr h

/-- The three slices taken by the 10-digit phone format reassemble the
digit string. -/
theorem take_drop_reassemble (c : List Char) :
    c.take 3 ++ ((c.drop 3).take 3 ++ c.drop 6) = c := by
  have h2 : (c.drop 3).drop 3 = c.drop 6 := by
    rw [List.drop_drop]
  rw [← h2, List.take_append_drop, List.take_append_drop]

/-- Stripping non-digits from a 10-digit formatted number returns `1`
followed by the original digit string. -/
theorem digits_usTenFormat (c : List Char) (h : ∀ a ∈ c, Char.isDigit a) :
    (usTenFormat c).filter Char.isDigit = '1' :: c := by
  have h3 : (c.take 3).filter Char.isDigit = c.take 3 :=
    filter_digits_self _ (fun a ha => h a (List.take_subset _ _ ha))
  have h36 : ((c.drop 3).take 3).filter Char.isDigit = (c.drop 3).take 3 :=
    filter_digits_self _ (fun a ha => h a (List.drop_subset _ _ (List.take_subset _ _ ha)))
  have h6 : (c.drop 6).filter Char.isDigit = c.drop 6 :=
    filter_digits_self _ (fun a ha => h a (List.drop_subset _ _ ha))
  have e1 : Char.isDigit '+' = false := by decide
  have e2 : Char.isDigit '1' = true := by decide
  have e3 : Char.isDigit ' ' = false := by decide
  have e4 : Char.isDigit '(' = false := by decide
  have e5 : Char.isDigit ')' = false := by decide
  have e6 : Char.isDigit '-' = false := by decide
  simp only [usTenFormat, List.filter_cons, List.filter_append, e1, e2, e3, e4, e5, e6,
    if_true, if_false, h3, h36, h6, Bool.false_eq_true, ite_false, ite_true]
  rw [take_drop_reassemble]

/-- A 10-digit formatted number is a fixed point of the formatter: its
digit string is 11 long starting with `1`, and the 11-digit branch
rebuilds the same string. -/
theorem usTenFormat_fixed (c : List Char) (h : ∀ a ∈ c, Char.isDigit a)
    (hlen : c.length = 10) :
    formatPhoneNumber (usTenFormat c) = usTenFormat c := by
  have hne : usTenFormat c ≠ [] := by simp [usTenFormat]
  have hd : (usTenFormat c).filter Char.isDigit = '1' :: c := digits_usTenFormat c h
  have hlen11 : ((usTenFormat c).filter Char.isDigit).length = 11 := by
    rw [hd, List.length_cons, hlen]
  have h10 : ¬((usTenFormat c).filter Char.isDigit).length = 10 := by
    rw [hlen11]; omega
  have hhead : ((usTenFormat c).filter Char.isDigit).head? = some '1' := by
    rw [hd]; rfl
  unfold formatPhoneNumber
  rw [if_neg hne, if_neg h10, if_pos ⟨hlen11, hhead⟩, hd]
  rfl

/-- A `+`-prefixed pure digit string whose length rules out both US
branches is a fixed point of the formatter. -/
theorem plusDigits_fixed (c : List Char) (h : ∀ a ∈ c, Char.isDigit a)
    (h10 : c.length ≠ 10) (h11 : ¬(c.length = 11 ∧ c.head? = some '1')) :
    formatPhoneNumber ('+' :: c) = '+' :: c := by
  have hne : ('+' :: c) ≠ [] := by simp
  have e1 : Char.isDigit '+' = false := by decide
  have hd : ('+' :: c).filter Char.isDigit = c := by
    rw [List.filter_cons]
    simp only [e1, Bool.false_eq_true, ite_false, if_false]
    exact filter_digits_self c h
  unfold formatPhoneNumber
  rw [if_neg hne, hd, if_neg h10, if_neg h11, ite_self]

/-- Claim C7 (confirmed): phone formatting is idempotent on its own
output — `formatPhoneNumber (formatPhoneNumber p) = formatPhoneNumber p`
for every input `p`. -/
theorem claim_C7_phone_idempotent (p : List Char) :
    formatPhoneNumber (formatPhoneNumber p) = formatPhoneNumber p := by
  by_cases hp : p = []
  · subst hp; rfl
  have hdig : ∀ a ∈ p.filter Char.isDigit, Char.isDigit a :=
    fun a ha => (List.mem_filter.mp ha).2
  by_cases h10 : (p.filter Char.isDigit).length = 10
  · have hfp : formatPhoneNumber p = usTenFormat (p.filter Char.isDigit) := by
      unfold formatPhoneNumber
      rw [if_neg hp, if_pos h10]
    rw [hfp]
    exact usTenFormat_fixed _ hdig h10
  by_cases h11 : (p.filter Char.isDigit).length = 11 ∧ (p.filter Char.isDigit).head? = some '1'
  · have hfp : formatPhoneNumber p = usElevenFormat (p.filter Char.isDigit) := by
      unfold formatPhoneNumber
      rw [if_neg hp, if_neg h10, if_pos h11]
    rw [hfp]
    obtain ⟨hlen, hhead⟩ := h11
    cases hc : p.filter Char.isDigit with
    | nil => rw [hc] at hhead; exact absurd hhead (by simp)
    | cons d e =>
      rw [hc] at hhead hlen hdig
      have hd1 : d = '1' := by
        simpa using hhead
      subst hd1
      have he : ∀ a ∈ e, Char.isDigit a := fun a ha => hdig a (List.mem_cons_of_mem _ ha)
      have helen : e.length = 10 := by simpa using hlen
      show formatPhoneNumber (usElevenFormat ('1' :: e)) = usElevenFormat ('1' :: e)
      show formatPhoneNumber (usTenFormat e) = usTenFormat e
      exact usTenFormat_fixed e he helen
  by_cases hplus : p.head? = some '+'
  · have hfp : formatPhoneNumber p = p := by
      unfold formatPhoneNumber
      rw [if_neg hp, if_neg h10, if_neg h11, if_pos hplus]
    rw [hfp]
    exact hfp
  · have hfp : formatPhoneNumber p = '+' :: p.filter Char.isDigit := by
      unfold formatPhoneNumber
      rw [if_neg hp, if_neg h10, if_neg h11, if_neg hplus]
    rw [hfp]
    exact plusDigits_fixed _ hdig h10 h11

/-- Claim C3, counterexample: `"+5551234567"` starts with `+` but is not
returned unchanged — the 10-digit rule fires first and reformats it. -/
theorem claim_C3_counterexample :
    ((("+5551234567").data).head? = some '+') ∧
    formatPhoneNumber (("+5551234567").data) = ("+1 (555) 123-4567").data ∧
    formatPhoneNumber (("+5551234567").data) ≠ ("+5551234567").data := by decide

/-- Claim C3 (amended): a `+`-starting input is returned unchanged only
when the digit-length rules do not apply — the `+` rule is checked after
the 10- and 11-digit rules, so it returns the input unchanged exactly for
`+` inputs whose digit string is neither 10 long nor 11 long starting
with `1`. -/
theorem claim_C3_plus_unchanged (p : List Char) (hplus : p.head? = some '+')
    (h10 : (p.filter Char.isDigit).length ≠ 10)
    (h11 : ¬((p.filter Char.isDigit).length = 11 ∧ (p.filter Char.isDigit).head? = some '1')) :
    formatPhoneNumber p = p := by
  have hne : p ≠ [] := by
    intro h
    rw [h] at hplus
    exact Option.noConfusion hplus
  unfold formatPhoneNumber
  rw [if_neg hne, if_neg h10, if_neg h11, if_pos hplus]

/-- Claim C3, witness: `"+44 20 7946 0958"` (12 digits) is returned
unchanged by the amended rule. -/
theorem claim_C3_witness :
    formatPhoneNumber (("+44 20 7946 0958").data) = ("+44 20 7946 0958").data :=
  claim_C3_plus_unchanged (("+44 20 7946 0958").data) (by decide) (by decide) (by decide)

/-- The code's 10-digit output shape coincides with the spec's
`+1 (AAA) PPP-LLLL` rendering of the digit string. -/
theorem usTenFormat_eq_spec (c : List Char) : usTenFormat c = specUSFormat c := by
  have ha : ((("+1 (").data : List Char)) = ['+', '1', ' ', '('] := rfl
  have hb : (((") ").data : List Char)) = [')', ' '] := rfl
  have hc : ((("-").data : List Char)) = ['-'] := rfl
  simp [usTenFormat, specUSFormat, ha, hb, hc]

/-- Claim C9, counterexample: the empty value has a digit string of
length 0, yet the formatter returns `""` rather than `"+"`. -/
theorem claim_C9_counterexample :
    (([] : List Char).head? ≠ some '+') ∧
    formatPhoneNumber ([] : List Char) = ([] : List Char) ∧
    formatPhoneNumber ([] : List Char) ≠ '+' :: (([] : List Char).filter Char.isDigit) := by
  decide

/-- Claim C9 (amended): for every nonempty value not starting with `+`,
the digit string D selects the format — length 10 gives
`+1 (AAA) PPP-LLLL` from D, length 11 starting with `1` gives the same
from D's digits 2-11, and any other length gives `+` followed by D; the
empty value yields the empty string (handled by the counterexample); the
table values hold. -/
theorem claim_C9_phone_rules (p : List Char) (hne : p ≠ [])
    (hplus : p.head? ≠ some '+') :
    ((p.filter Char.isDigit).length = 10 →
      formatPhoneNumber p = specUSFormat (p.filter Char.isDigit)) ∧
    ((p.filter Char.isDigit).length = 11 ∧ (p.filter Char.isDigit).head? = some '1' →
      formatPhoneNumber p = specUSFormat ((p.filter Char.isDigit).drop 1)) ∧
    ((p.filter Char.isDigit).length ≠ 10 →
      ¬((p.filter Char.isDigit).length = 11 ∧ (p.filter Char.isDigit).head? = some '1') →
      formatPhoneNumber p = '+' :: p.filter Char.isDigit) ∧
    formatPhoneNumber (("5551234567").data) = ("+1 (555) 123-4567").data ∧
    formatPhoneNumber (("15551234567").data) = ("+1 (555) 123-4567").data ∧
    formatPhoneNumber (("123").data) = ("+123").data := by
  refine ⟨?_, ?_, ?_, by decide, by decide, by decide⟩
  · intro h10
    unfold formatPhoneNumber
    rw [if_neg hne, if_pos h10, usTenFormat_eq_spec]
  · intro h11
    have h10 : ¬(p.filter Char.isDigit).length = 10 := by
      rw [h11.1]; omega
    have hfp : formatPhoneNumber p = usElevenFormat (p.filter Char.isDigit) := by
      unfold formatPhoneNumber
      rw [if_neg hne, if_neg h10, if_pos h11]
    rw [hfp]
    obtain ⟨hlen, hhead⟩ := h11
    cases hc : p.filter Char.isDigit with
    | nil => rw [hc] at hhead; exact absurd hhead (by simp)
    | cons d e =>
      rw [hc] at hhead
      have hd1 : d = '1' := by simpa using hhead
      subst hd1
      show usTenFormat e = specUSFormat (('1' :: e).drop 1)
      rw [usTenFormat_eq_spec]
      rfl
  · intro h10 h11
    unfold formatPhoneNumber
    rw [if_neg hne, if_neg h10, if_neg h11]
    rw [if_neg hplus]

/-- Claim C9, witness: the 10-digit rule applied at `"5551234567"` and
the fallback rule applied at `"abc"`. -/
theorem claim_C9_witness :
    formatPhoneNumber (("5551234567").data)
      = specUSFormat ((("5551234567").data).filter Char.isDigit) ∧
    formatPhoneNumber (("abc").data) = '+' :: ((("abc").data).filter Char.isDigit) := by
  refine ⟨(claim_C9_phone_rules (("5551234567").data) (by decide) (by decide)).1 (by decide),
          (claim_C9_phone_rules (("abc").data) (by decide) (by decide)).2.2.1 (by decide) (by decide)⟩

/-- Claim C1 (code bug): on the single-record set R whose phone is
non-USA, one run stores `isUSANumber` as the wrapper of `false`; the
second run's read `values.isUSANumber?.value || values.isUSANumber`
falls back to the wrapper object because `false` is falsy, the strict
comparison against the recomputed `false` therefore fires again, and the
second run emits the same update and makes a batch-update call instead of
zero updates. -/
theorem claim_C1_second_run_update :
    processRecords c1recordsAfter =
      [⟨("r1").data, [(isUSANumberK, .vobj (.vbool false))]⟩] ∧
    batchUpdateCall c1recordsAfter ≠ none := by decide

/-- Claim C2, counterexample: two field maps identical except for the
duplicate-status field receive different signatures, and in the batch of
5 where records 2 and 4 agree on everything but that field, both are
assigned the unique marker, not the duplicate marker embedding count 2. -/
theorem claim_C2_counterexample :
    createRowSignature c2m2 ≠ createRowSignature c2m4 ∧
    lookupAssoc (updateValues (processRecords c2batchX) (("p2").data)) duplicateStatusK
      = some (.vobj (.vstr uniqueMarker)) ∧
    lookupAssoc (updateValues (processRecords c2batchX) (("p4").data)) duplicateStatusK
      = some (.vobj (.vstr uniqueMarker)) := by decide

/-- Claim C2 (amended): row signatures are built from every field of the
map, the duplicate-status field included, so in a batch of 5 records
where records 2 and 4 have fully identical field maps both are assigned
the duplicate marker embedding count 2 and the other three the unique
marker. -/
theorem claim_C2_duplicate_batch :
    lookupAssoc (updateValues (processRecords c2batch) (("q2").data)) duplicateStatusK
      = some (.vobj (.vstr (dupMarker 2))) ∧
    lookupAssoc (updateValues (processRecords c2batch) (("q4").data)) duplicateStatusK
      = some (.vobj (.vstr (dupMarker 2))) ∧
    lookupAssoc (updateValues (processRecords c2batch) (("q1").data)) duplicateStatusK
      = some (.vobj (.vstr uniqueMarker)) ∧
    lookupAssoc (updateValues (processRecords c2batch) (("q3").data)) duplicateStatusK
      = some (.vobj (.vstr uniqueMarker)) ∧
    lookupAssoc (updateValues (processRecords c2batch) (("q5").data)) duplicateStatusK
      = some (.vobj (.vstr uniqueMarker)) := by decide

/-- Claim C6 (confirmed): the USA-classification table —
`"5551234567"`, `"15551234567"` and `"+1 (555) 123-4567"` are true;
`"+44 20 7946 0958"`, `"+1234567890123"` (more than 10 characters after
`+1`) and the empty/absent value are false. -/
theorem claim_C6_usa_table :
    isUSANumber (("5551234567").data) = true ∧
    isUSANumber (("15551234567").data) = true ∧
    isUSANumber (("+1 (555) 123-4567").data) = true ∧
    isUSANumber (("+44 20 7946 0958").data) = false ∧
    isUSANumber (("+1234567890123").data) = false ∧
    isUSANumber ([] : List Char) = false := by decide

/-- Claim C4, counterexample: a record storing the boolean `true` in
`isUSANumber` but having no phone value.  The classification of the
absent phone is `false`, which differs from the stored `true`, yet the
diff emits no `isUSANumber` update because the whole block is guarded by
the phone's truthiness. -/
theorem claim_C4_counterexample :
    isUSANumber ([] : List Char) = false ∧
    readField c4vs isUSANumberK = some (.vbool true) ∧
    lookupAssoc (updateValues (processRecords [c4rec]) (("r4").data)) isUSANumberK
      = none := by decide

/-- Claim C4 (amended): the isUSANumber block runs only for records whose
phone value reads truthy; for those it emits an update exactly when the
read current value — a wrapper unwrapped only when its inner value is
truthy — differs strictly from the computed classification, so in
particular always when the field is absent. -/
theorem claim_C4_usa_update (rowSigs : List (List Char × Nat))
    (recSigs : List (List Char × List Char)) (r : JRecord) (vs : FieldMap) :
    (truthyOpt (readField vs phoneK) = false →
      (diffFields rowSigs recSigs r vs).isUSANumber = none) ∧
    (truthyOpt (readField vs phoneK) = true →
      (diffFields rowSigs recSigs r vs).isUSANumber =
        (if readField vs isUSANumberK
            = some (.vbool (isUSANumber (jsToStringOpt (readField vs phoneK)))) then none
         else some (.vobj (.vbool (isUSANumber (jsToStringOpt (readField vs phoneK))))))) := by
  constructor
  · intro h
    cases hv : readField vs phoneK with
    | none => simp [diffFields, usaUpdate, hv]
    | some pv =>
      rw [hv] at h
      simp only [truthyOpt] at h
      simp [diffFields, usaUpdate, hv, h]
  · intro h
    cases hv : readField vs phoneK with
    | none => rw [hv] at h; simp [truthyOpt] at h
    | some pv =>
      rw [hv] at h
      simp only [truthyOpt] at h
      by_cases hc : readField vs isUSANumberK
          = some (JVal.vbool (isUSANumber (jsToString pv)))
      · simp [diffFields, usaUpdate, hv, h, jsToStringOpt, hc]
      · simp [diffFields, usaUpdate, hv, h, jsToStringOpt, hc]

/-- Claim C4, witness: a record with phone `"5551234567"` and no stored
flag receives the update wrapping `true`. -/
theorem claim_C4_witness :
    (diffFields [] [] c4wrec c4wvs).isUSANumber = some (.vobj (.vbool true)) := by
  have h := (claim_C4_usa_update [] [] c4wrec c4wvs).2 (by decide)
  rw [h]
  decide

/-- Claim C5, counterexample: on `"mary-jane"` the code capitalizes at
every word-character boundary (`"Mary-Jane"`), while the claimed
whitespace-delimited-word rule yields `"Mary-jane"`. -/
theorem claim_C5_counterexample :
    toNameCase (("mary-jane").data) = ("Mary-Jane").data ∧
    toNameCaseSpec (("mary-jane").data) = ("Mary-jane").data ∧
    toNameCase (("mary-jane").data) ≠ toNameCaseSpec (("mary-jane").data) := by decide

/-- The boundary scan agrees with the positional characterization: with
the flag encoding whether the previous character is a word character, the
output at each position is the input character, uppercased exactly at
word starts. -/
theorem capWordStarts_zip (t : List Char) : ∀ (prev : Option Char),
    capWordStarts (match prev with | none => false | some p => isWordChar p) t =
      List.zipWith
        (fun pc c =>
          if isWordChar c && !(match pc with | none => false | some p => isWordChar p) then
            c.toUpper
          else c)
        (prev :: t.map some) t := by
  induction t with
  | nil => intro prev; rfl
  | cons c cs ih =>
    intro prev
    have htail : capWordStarts (isWordChar c) cs =
        List.zipWith
          (fun pc c =>
            if isWordChar c && !(match pc with | none => false | some p => isWordChar p) then
              c.toUpper
            else c)
          (some c :: cs.map some) cs := ih (some c)
    cases hw : isWordChar c with
    | true =>
      rw [hw] at htail
      cases hp : (match prev with | none => false | some p => isWordChar p) with
      | true => simp [List.zipWith_cons_cons, capWordStarts, hw, hp, htail]
      | false => simp [List.zipWith_cons_cons, capWordStarts, hw, hp, htail]
    | false =>
      rw [hw] at htail
      simp [List.zipWith_cons_cons, capWordStarts, hw, htail]

/-- Claim C5 (amended): for every input, the output of name casing is the
lowercased input with each character uppercased exactly when it is an
ASCII word character (letter, digit or underscore) whose predecessor is
absent or not a word character — word-character-run boundaries rather
than whitespace-delimited words; the empty input yields the empty string
and `"DANIELLE ADAMS"` maps to `"Danielle Adams"`. -/
theorem claim_C5_name_casing (s : List Char) :
    toNameCase s = toNameCaseAlt s ∧
    toNameCase (("DANIELLE ADAMS").data) = ("Danielle Adams").data ∧
    toNameCase ([] : List Char) = [] := by
  refine ⟨?_, by decide, rfl⟩
  by_cases hs : s = []
  · subst hs; rfl
  · unfold toNameCase toNameCaseAlt
    rw [if_neg hs]
    exact capWordStarts_zip (s.map Char.toLower) none

/-- A fold whose step ignores the elements rejected by `p` computes the
same value on the filtered list. -/
theorem foldl_skipped {α β : Type} (f : β → α → β) (p : α → Bool)
    (hf : ∀ b a, p a = false → f b a = b) :
    ∀ (l : List α) (b : β), l.foldl f b = (l.filter p).foldl f b := by
  intro l
  induction l with
  | nil => intro b; rfl
  | cons a l ih =>
    intro b
    by_cases h : p a = true
    · rw [List.filter_cons, if_pos h, List.foldl_cons, List.foldl_cons]
      exact ih (f b a)
    · have h' : p a = false := by simpa using h
      rw [List.filter_cons, if_neg (by simp [h']), List.foldl_cons, hf b a h']
      exact ih b

/-- Claim C10 (confirmed): records without a `values` field map are
skipped by both pipeline passes — removing them changes neither the
signature counts of the first pass nor the update batch of the second. -/
theorem claim_C10_skip_no_values (records : List JRecord) :
    computeSigs records = computeSigs (records.filter (fun r => r.values.isSome)) ∧
    processRecords records = processRecords (records.filter (fun r => r.values.isSome)) := by
  have hsig : computeSigs records
      = computeSigs (records.filter (fun r => r.values.isSome)) := by
    unfold computeSigs
    refine foldl_skipped _ _ (fun b a ha => ?_) records ([], [])
    cases hv : a.values with
    | none => simp [hv]
    | some vs => simp [hv] at ha
  refine ⟨hsig, ?_⟩
  unfold processRecords
  rw [← hsig]
  refine foldl_skipped _ _ (fun b a ha => ?_) records []
  cases hv : a.values with
  | none => simp [hv]
  | some vs => simp [hv] at ha

/-- The retry loop never makes more store calls than its attempt budget. -/
theorem fetchAux_calls_le (store : Nat → FetchAttempt) :
    ∀ (fuel i : Nat), (fetchAux store fuel i).calls ≤ fuel := by
  intro fuel
  induction fuel with
  | zero => intro i; exact Nat.le_refl 0
  | succ n ih =>
    intro i
    unfold fetchAux
    by_cases h : attemptRecords (store i) = []
    · rw [if_pos h]
      exact Nat.succ_le_succ (ih (i + 1))
    · rw [if_neg h]
      exact Nat.succ_le_succ (Nat.zero_le n)

/-- When every attempt in the budget fails or is empty, the loop uses the
whole budget, waits 2 units after each attempt but the last, and returns
the empty list. -/
theorem fetchAux_exhaust (store : Nat → FetchAttempt) :
    ∀ (fuel i : Nat), (∀ k, k < fuel → attemptRecords (store (i + k)) = []) →
      fetchAux store fuel i = ⟨[], fuel, 2 * (fuel - 1)⟩ := by
  intro fuel
  induction fuel with
  | zero => intro i _; rfl
  | succ n ih =>
    intro i h
    have h0 : attemptRecords (store i) = [] := by simpa using h 0 (Nat.succ_pos n)
    have hrest : ∀ k, k < n → attemptRecords (store (i + 1 + k)) = [] := by
      intro k hk
      have := h (k + 1) (Nat.succ_lt_succ hk)
      have harg : i + (k + 1) = i + 1 + k := by omega
      rwa [harg] at this
    unfold fetchAux
    rw [if_pos h0, ih (i + 1) hrest]
    have hw : 2 * (n - 1) + (if n = 0 then 0 else 2) = 2 * (n + 1 - 1) := by
      cases n with
      | zero => rfl
      | succ m =>
        rw [if_neg (Nat.succ_ne_zero m)]
        omega
    rw [hw]

/-- When attempt `j` is the first to yield a non-empty list, the loop
returns exactly that list, makes `j + 1` store calls, and waits 2 units
after each of the `j` failed attempts. -/
theorem fetchAux_first (store : Nat → FetchAttempt) :
    ∀ (fuel j i : Nat), j < fuel →
      (∀ k, k < j → attemptRecords (store (i + k)) = []) →
      attemptRecords (store (i + j)) ≠ [] →
      fetchAux store fuel i = ⟨attemptRecords (store (i + j)), j + 1, 2 * j⟩ := by
  intro fuel
  induction fuel with
  | zero => intro j i hj; omega
  | succ n ih =>
    intro j i hj hprev hne
    cases j with
    | zero =>
      have h0 : attemptRecords (store i) ≠ [] := by simpa using hne
      unfold fetchAux
      rw [if_neg h0, Nat.add_zero]
    | succ m =>
      have h0 : attemptRecords (store i) = [] := by
        simpa using hprev 0 (Nat.succ_pos m)
      have hm : m < n := Nat.lt_of_succ_lt_succ hj
      have hprev' : ∀ k, k < m → attemptRecords (store (i + 1 + k)) = [] := by
        intro k hk
        have := hprev (k + 1) (Nat.succ_lt_succ hk)
        have harg : i + (k + 1) = i + 1 + k := by omega
        rwa [harg] at this
      have hne' : attemptRecords (store (i + 1 + m)) ≠ [] := by
        have harg : i + (m + 1) = i + 1 + m := by omega
        rwa [harg] at hne
      unfold fetchAux
      rw [if_pos h0, ih m (i + 1) hm hprev' hne']
      have hn0 : ¬(n = 0) := by omega
      have harg : i + 1 + m = i + (m + 1) := by omega
      have hw : 2 * m + (if n = 0 then 0 else 2) = 2 * (m + 1) := by
        rw [if_neg hn0]
        omega
      rw [harg, hw]

/-- Claim C8 (confirmed): the resilient fetch makes at most 5 store
calls; it returns the list of the first attempt yielding a non-empty
list, having made `j + 1` calls and waited the 2-unit delay after each of
the `j` earlier failed or empty attempts and not after the final one; if
all 5 attempts fail or come back empty it returns the empty list after 5
calls and 4 delays, raising nothing (store errors are values normalized
to the empty attempt, never propagated); and an empty record list leads
to no batch-update call. -/
theorem claim_C8_fetch_retry (store : Nat → FetchAttempt) :
    (fetchRecords store).calls ≤ 5 ∧
    (∀ j, j < 5 → (∀ k, k < j → attemptRecords (store k) = []) →
      attemptRecords (store j) ≠ [] →
      fetchRecords store = ⟨attemptRecords (store j), j + 1, 2 * j⟩) ∧
    ((∀ k, k < 5 → attemptRecords (store k) = []) →
      fetchRecords store = ⟨[], 5, 8⟩) ∧
    batchUpdateCall [] = none := by
  refine ⟨fetchAux_calls_le store 5 0, ?_, ?_, rfl⟩
  · intro j hj hprev hne
    have h := fetchAux_first store 5 j 0 hj
      (fun k hk => by rw [Nat.zero_add]; exact hprev k hk)
      (by rw [Nat.zero_add]; exact hne)
    rw [Nat.zero_add] at h
    exact h
  · intro h
    have h' := fetchAux_exhaust store 5 0
      (fun k hk => by rw [Nat.zero_add]; exact h k hk)
    exact h'

/-- Claim C8, witness: a store erring on attempt 0 and empty on attempt 1
yields attempt 2's records after 3 calls and 4 wait units; a store that
always errs yields the empty list after 5 calls and 8 wait units. -/
theorem claim_C8_witness :
    fetchRecords c8storeA = ⟨[c1rec], 3, 4⟩ ∧
    fetchRecords c8storeB = ⟨[], 5, 8⟩ := by
  constructor
  · have h := (claim_C8_fetch_retry c8storeA).2.1 2 (by omega)
      (by decide) (by decide)
    rw [h]
    rfl
  · exact (claim_C8_fetch_retry c8storeB).2.2.1 (fun k _ => rfl)
